import Mathlib

/-!
Verification of the LINE-bot blog-publisher conversation engine.

The development shallowly embeds the TypeScript sources:
  * `linebot/src/conversation/flow.ts`   (ConversationFlow)
  * `linebot/src/session/storage.ts`     (createIdleState, updateStateStep)
  * `linebot/src/conversation/processor.ts` (MessageProcessor)
  * `linebot/src/conversation/manager.ts`   (ConversationManager)
  * `linebot/src/image/processor.ts`     (BaseImageProcessor)
  * `linebot/src/types.ts`               (ConversationStep, PostData, errors)

Modelling conventions:
  * JavaScript strings are modelled by Lean `String`; `s.length` is modelled by
    the code-point count `jsLength` (identical to the UTF-16 unit count for all
    BMP text, which covers every literal in the sources and in the spec).
  * `Date` values are modelled by an abstract `Nat` clock passed explicitly.
  * Calls into external collaborators (the sharp image library, the LINE HTTP
    client, temp storage) are modelled by explicit environment records; the
    branch structure around those calls is taken verbatim from the sources.
  * Thrown exceptions are modelled with `Except`.
-/

namespace TsupoxBot

/-- Conversation steps, from `ConversationStep` in `types.ts`
(string-valued TS enum: idle, waiting_title, waiting_content, waiting_image,
waiting_tags, confirming). -/
inductive ConversationStep where
  | idle
  | waitingTitle
  | waitingContent
  | waitingImage
  | waitingTags
  | confirming
deriving DecidableEq, Repr

/-- String value of each enum member, as declared in `types.ts`. -/
def stepValue : ConversationStep → String
  | .idle => "idle"
  | .waitingTitle => "waiting_title"
  | .waitingContent => "waiting_content"
  | .waitingImage => "waiting_image"
  | .waitingTags => "waiting_tags"
  | .confirming => "confirming"

/-- PostData from `types.ts`: optional title, content, imageUrl, imagePath and
a tag list. -/
structure PostData where
  title : Option String := none
  content : Option String := none
  imageUrl : Option String := none
  imagePath : Option String := none
  tags : List String := []
deriving DecidableEq, Repr

/-- ConversationState from `types.ts`; `Date` fields are an abstract clock. -/
structure ConversationState where
  step : ConversationStep
  data : PostData
  createdAt : Nat
  updatedAt : Nat
deriving DecidableEq, Repr

/-- Partial data update (`Partial<ConversationState['data']>`): each field is
`some v` when the call site supplies it, `none` when absent from the object
literal. -/
structure DataUpdates where
  title : Option String := none
  content : Option String := none
  imageUrl : Option String := none
  imagePath : Option String := none
  tags : Option (List String) := none
deriving DecidableEq, Repr

/-- JS object spread of the updates over the data,
as in `{ ...currentState.data, ...dataUpdates }` in `storage.ts`. -/
def applyUpdates (d : PostData) (u : DataUpdates) : PostData :=
  { title := match u.title with | some t => some t | none => d.title
    content := match u.content with | some c => some c | none => d.content
    imageUrl := match u.imageUrl with | some i => some i | none => d.imageUrl
    imagePath := match u.imagePath with | some p => some p | none => d.imagePath
    tags := match u.tags with | some ts => ts | none => d.tags }

/-- createIdleState from `session/storage.ts`. -/
def createIdleState (now : Nat) : ConversationState :=
  { step := .idle
    data := { tags := [] }
    createdAt := now
    updatedAt := now }

/-- updateStateStep from `session/storage.ts`: new step, spread data updates,
refresh `updatedAt`. -/
def updateStateStep (s : ConversationState) (newStep : ConversationStep)
    (u : DataUpdates) (now : Nat) : ConversationState :=
  { s with step := newStep, data := applyUpdates s.data u, updatedAt := now }

/-- The `validTransitions` table of `ConversationFlow.isValidTransition`
in `flow.ts`, followed by the `includes` membership test. -/
def isValidTransition (f t : ConversationStep) : Bool :=
  let targets : List ConversationStep :=
    match f with
    | .idle => [.waitingTitle]
    | .waitingTitle => [.waitingContent, .idle]
    | .waitingContent => [.waitingImage, .idle]
    | .waitingImage => [.waitingTags, .idle]
    | .waitingTags => [.confirming, .idle]
    | .confirming => [.idle]
  targets.contains t

/-- The `flowOrder` table of `ConversationFlow.getNextStep` in `flow.ts`.
The source returns `ConversationStep | null`; the table is total, so every
step maps to `some` successor (the `?? null` fallback is unreachable). -/
def getNextStep : ConversationStep → Option ConversationStep
  | .idle => some .waitingTitle
  | .waitingTitle => some .waitingContent
  | .waitingContent => some .waitingImage
  | .waitingImage => some .waitingTags
  | .waitingTags => some .confirming
  | .confirming => some .idle

/-- Errors thrown by `ConversationFlow` (plain `Error` objects in the source;
the spec calls the invalid-transition one a TransitionError). -/
inductive FlowError where
  | invalidTransition (f t : ConversationStep)
  | noNextStep (s : ConversationStep)
deriving DecidableEq, Repr

/-- ConversationFlow.transitionTo from `flow.ts`: validate, then
`updateStateStep`; throws on an invalid transition. -/
def transitionTo (s : ConversationState) (target : ConversationStep)
    (u : DataUpdates) (now : Nat) : Except FlowError ConversationState :=
  if isValidTransition s.step target then
    .ok (updateStateStep s target u now)
  else
    .error (.invalidTransition s.step target)

/-- ConversationFlow.transitionToNext from `flow.ts`. -/
def transitionToNext (s : ConversationState) (u : DataUpdates) (now : Nat) :
    Except FlowError ConversationState :=
  match getNextStep s.step with
  | none => .error (.noNextStep s.step)
  | some next =>
      if isValidTransition s.step next then
        .ok (updateStateStep s next u now)
      else
        .error (.invalidTransition s.step next)

/-- ConversationFlow.canCancel from `flow.ts`. -/
def canCancel (s : ConversationStep) : Bool :=
  s ≠ .idle

/-- C1: for every pair of conversation steps, `isValidTransition from to`
returns true if and only if `to` is the forward-flow successor of `from`
(per `getNextStep`), or `to` is IDLE and `from` is not IDLE; in particular
`isValidTransition IDLE IDLE` is false. -/
theorem isValidTransition_iff_successor_or_cancel :
    (∀ f t : ConversationStep,
      isValidTransition f t = true ↔
        (getNextStep f = some t ∨ (t = .idle ∧ f ≠ .idle))) ∧
    isValidTransition .idle .idle = false := by
  constructor
  · intro f t
    cases f <;> cases t <;> simp [isValidTransition, getNextStep]
  · rfl

/-! JavaScript string primitives, modelled over the character list of a
Lean `String`. -/

/-- Whitespace test used by the models of `String.prototype.trim` and
`parseInt` (JS trims the WhiteSpace and LineTerminator productions; for the
characters exercised by this codebase this coincides with
`Char.isWhitespace`). -/
def isJsWs (c : Char) : Bool :=
  c.isWhitespace

/-- Helper: drop trailing characters satisfying `p`. -/
def dropTrailing (p : Char → Bool) (l : List Char) : List Char :=
  (l.reverse.dropWhile p).reverse

/-- Model of `String.prototype.trim`. -/
def jsTrim (s : String) : String :=
  String.mk (dropTrailing isJsWs (s.data.dropWhile isJsWs))

/-- Model of `String.prototype.length` (code-point count; equal to the UTF-16
unit count on BMP text, which covers all text in this codebase). -/
def jsLength (s : String) : Nat :=
  s.data.length

/-- Model of `String.prototype.toLowerCase` (ASCII case map; the command
vocabulary this is applied to contains only ASCII and Japanese characters,
on which the JS and ASCII maps agree). -/
def jsToLower (s : String) : String :=
  String.mk (s.data.map Char.toLower)

/-- Model of `String.prototype.substring(n)` for code-point index `n`. -/
def jsDrop (n : Nat) (s : String) : String :=
  String.mk (s.data.drop n)

/-- Helper: does the character list start with the given pattern? -/
def leadsWith : List Char → List Char → Bool
  | [], _ => true
  | _ :: _, [] => false
  | a :: as, b :: bs => a = b && leadsWith as bs

/-- Model of `String.prototype.startsWith`. -/
def jsStartsWith (s pat : String) : Bool :=
  leadsWith pat.data s.data

/-- Helper: does the character list contain the pattern as a contiguous
sublist? -/
def containsSub (pat : List Char) : List Char → Bool
  | [] => leadsWith pat []
  | c :: cs => leadsWith pat (c :: cs) || containsSub pat cs

/-- Model of `String.prototype.includes`. -/
def jsIncludes (s pat : String) : Bool :=
  containsSub pat.data s.data

/-- Helper for the model of `String.prototype.split(',')`. -/
def splitOnChar (sep : Char) : List Char → List (List Char)
  | [] => [[]]
  | c :: cs =>
      let r := splitOnChar sep cs
      if c = sep then [] :: r
      else
        match r with
        | [] => [[c]]
        | h :: t => (c :: h) :: t

/-- Model of `String.prototype.split(',')` (note `''.split(',')` is `['']`). -/
def jsSplitComma (s : String) : List String :=
  (splitOnChar ',' s.data).map String.mk

/-- Decimal digit value. -/
def digitVal (c : Char) : Option Nat :=
  if '0' ≤ c ∧ c ≤ '9' then some (c.toNat - '0'.toNat) else none

/-- Hexadecimal digit value. -/
def hexVal (c : Char) : Option Nat :=
  if '0' ≤ c ∧ c ≤ '9' then some (c.toNat - '0'.toNat)
  else if 'a' ≤ c ∧ c ≤ 'f' then some (c.toNat - 'a'.toNat + 10)
  else if 'A' ≤ c ∧ c ≤ 'F' then some (c.toNat - 'A'.toNat + 10)
  else none

/-- Accumulate leading digits; `none` when no leading digit exists (NaN). -/
def parseDigitsAux (val : Char → Option Nat) (base : Nat) :
    List Char → Nat → Nat
  | [], acc => acc
  | c :: cs, acc =>
      match val c with
      | some d => parseDigitsAux val base cs (acc * base + d)
      | none => acc

/-- Parse a non-empty run of leading digits, ignoring any trailing garbage,
as `parseInt` does; `none` models NaN. -/
def parseDigits (val : Char → Option Nat) (base : Nat) :
    List Char → Option Nat
  | [] => none
  | c :: cs =>
      match val c with
      | some d => some (parseDigitsAux val base cs d)
      | none => none

/-- Model of `parseInt(s)` with no radix argument: skip leading whitespace,
optional sign, then either a `0x`/`0X` hexadecimal literal or decimal digits;
`none` models NaN. -/
def jsParseInt (s : String) : Option Int :=
  let l := s.data.dropWhile isJsWs
  let signed : Int × List Char :=
    match l with
    | '-' :: rest => (-1, rest)
    | '+' :: rest => (1, rest)
    | _ => (1, l)
  let body : Option Nat :=
    match signed.2 with
    | '0' :: 'x' :: rest => parseDigits hexVal 16 rest
    | '0' :: 'X' :: rest => parseDigits hexVal 16 rest
    | other => parseDigits digitVal 10 other
  match body with
  | some n => some (signed.1 * n)
  | none => none

/-! Configuration and error types. -/

/-- Blog-related configuration fields consumed by the dispatcher
(from `Config` in `types.ts`; fields not read by the embedded code paths are
omitted). -/
structure BlogConfig where
  baseUrl : String
  availableTags : List String
deriving DecidableEq, Repr

/-- Configuration record passed to the MessageProcessor. -/
structure Config where
  blog : BlogConfig
deriving DecidableEq, Repr

/-- Error classes from `types.ts` raised by the image pipeline
(`LineBotError` subclasses; each carries a technical `message` and an optional
user-facing `userMessage` — in this codebase the pipeline always supplies
the user message, so it is modelled as always present). -/
inductive LineBotError where
  | validation (message userMessage : String)
  | processing (message userMessage : String)
deriving DecidableEq, Repr

/-- Technical `message` property of the error. -/
def LineBotError.message : LineBotError → String
  | .validation m _ => m
  | .processing m _ => m

/-- User-facing `userMessage` property of the error. -/
def LineBotError.userMessage : LineBotError → String
  | .validation _ u => u
  | .processing _ u => u

/-- Is this a ValidationError? -/
def LineBotError.isValidation : LineBotError → Bool
  | .validation _ _ => true
  | .processing _ _ => false

/-- Rendered `message` of the plain `Error` objects thrown by
`ConversationFlow` in `flow.ts`. -/
def FlowError.message : FlowError → String
  | .invalidTransition f t =>
      "Invalid transition from " ++ stepValue f ++ " to " ++ stepValue t
  | .noNextStep s => "No next step available from " ++ stepValue s

/-- Any thrown JS `Error` reaching a catch block of the dispatcher: a
pipeline `LineBotError`, a flow transition error, or a plain `Error` from a
collaborator (for example the LINE download client). -/
inductive Thrown where
  | lineBot (e : LineBotError)
  | flow (e : FlowError)
  | plain (message : String)
deriving DecidableEq, Repr

/-- The `message` property of the thrown error. -/
def Thrown.message : Thrown → String
  | .lineBot e => e.message
  | .flow e => e.message
  | .plain m => m

/-! MessageProcessor (conversation/processor.ts). -/

/-- Result record returned by the MessageProcessor (`ProcessingResult`). -/
structure ProcessingResult where
  nextState : Option ConversationState := none
  responseMessage : Option String := none
deriving DecidableEq, Repr

/-- The fixed command vocabulary of `MessageProcessor.isGlobalCommand`. -/
def globalCommands : List String :=
  ["投稿作成", "ヘルプ", "help", "キャンセル", "cancel", "やめる", "中止"]

/-- MessageProcessor.isGlobalCommand: membership of the lower-cased text. -/
def isGlobalCommand (text : String) : Bool :=
  globalCommands.contains (jsToLower text)

/-- MessageProcessor.getHelpMessage. -/
def getHelpMessage : String :=
  "つぽブログボット ヘルプ 📚\n\n" ++
    "【基本コマンド】\n" ++
    "• 投稿作成 - 新しいブログ投稿を作成\n" ++
    "• ヘルプ - このヘルプを表示\n" ++
    "• キャンセル - 投稿作成を中止\n\n" ++
    "【投稿作成の流れ】\n" ++
    "1. タイトル入力\n" ++
    "2. 本文入力\n" ++
    "3. 画像送信\n" ++
    "4. タグ選択\n" ++
    "5. 確認・公開\n\n" ++
    "【対応ファイル形式】\n" ++
    "• 画像: JPEG, PNG, GIF\n\n" ++
    "何か問題があれば「投稿作成」と送信して最初からやり直してください。"

/-- MessageProcessor.handleGlobalCommand. Note that the start command calls
`transitionTo(currentState, WAITING_TITLE)` without first checking the
current step, while the cancel command is guarded by `canCancel`. -/
def handleGlobalCommand (command : String) (s : ConversationState)
    (now : Nat) : Except Thrown ProcessingResult :=
  let lowerCommand := jsToLower command
  if lowerCommand = "投稿作成" then
    match transitionTo s .waitingTitle {} now with
    | .error e => .error (.flow e)
    | .ok nextState =>
        .ok { nextState := some nextState
              responseMessage := some ("新しいブログ投稿を作成しましょう！✨\n\n" ++
                "まず、投稿のタイトルを入力してください。") }
  else if (["ヘルプ", "help"] : List String).contains lowerCommand then
    .ok { responseMessage := some getHelpMessage }
  else if (["キャンセル", "cancel", "やめる", "中止"] : List String).contains
      lowerCommand then
    if canCancel s.step then
      match transitionTo s .idle {} now with
      | .error e => .error (.flow e)
      | .ok nextState =>
          .ok { nextState := some nextState
                responseMessage := some ("投稿作成をキャンセルしました。\n\n" ++
                  "新しい投稿を作成するには「投稿作成」と送信してください。") }
    else
      .ok { responseMessage := some "キャンセルできる投稿作成が進行中ではありません。" }
  else
    .ok { responseMessage :=
            some "不明なコマンドです。「ヘルプ」と送信してコマンド一覧を確認してください。" }

/-- MessageProcessor.handleIdleState. -/
def handleIdleState : ProcessingResult :=
  { responseMessage := some ("投稿を作成するには「投稿作成」と送信してください。\n" ++
      "ヘルプが必要な場合は「ヘルプ」と送信してください。") }

/-- MessageProcessor.handleTitleInput. -/
def handleTitleInput (text : String) (s : ConversationState) (now : Nat) :
    Except Thrown ProcessingResult :=
  if jsLength text < 1 then
    .ok { responseMessage := some "タイトルを入力してください。" }
  else if 100 < jsLength text then
    .ok { responseMessage := some "タイトルが長すぎます。100文字以内で入力してください。" }
  else
    match transitionToNext s { title := some text } now with
    | .error e => .error (.flow e)
    | .ok nextState =>
        .ok { nextState := some nextState
              responseMessage := some ("タイトル: \"" ++ text ++ "\"\n\n" ++
                "次に、投稿の本文を入力してください。") }

/-- MessageProcessor.handleContentInput. -/
def handleContentInput (text : String) (s : ConversationState) (now : Nat) :
    Except Thrown ProcessingResult :=
  if jsLength text < 1 then
    .ok { responseMessage := some "本文を入力してください。" }
  else if 5000 < jsLength text then
    .ok { responseMessage := some "本文が長すぎます。5000文字以内で入力してください。" }
  else
    match transitionToNext s { content := some text } now with
    | .error e => .error (.flow e)
    | .ok nextState =>
        .ok { nextState := some nextState
              responseMessage := some ("本文を受信しました！📝\n\n" ++
                "次に、投稿に使用する画像を送信してください。\n" ++
                "（JPEG、PNG、GIF形式に対応しています）") }

/-- MessageProcessor.handleImageWaitingState. -/
def handleImageWaitingState : ProcessingResult :=
  { responseMessage := some ("画像を送信してください。\n" ++
      "テキストではなく、画像ファイルを送信してください。\n\n" ++
      "投稿をキャンセルする場合は「キャンセル」と送信してください。") }

/-- The `for (const num of tagNumbers)` accumulation loop of
`MessageProcessor.parseTagSelection`: the comparison `num >= 1` is false for
NaN (modelled by `none`), in-range indices resolve to `availableTags[num-1]`,
and `selectedTags.includes(tag)` guards the push. -/
def selectTagsLoop (availableTags selectedTags : List String) :
    List (Option Int) → List String
  | [] => selectedTags
  | num :: rest =>
      match num with
      | some n =>
          if 1 ≤ n ∧ n ≤ (availableTags.length : Int) then
            let tag := availableTags.getD (n.toNat - 1) ""
            if selectedTags.contains tag then
              selectTagsLoop availableTags selectedTags rest
            else
              selectTagsLoop availableTags (selectedTags ++ [tag]) rest
          else
            selectTagsLoop availableTags selectedTags rest
      | none => selectTagsLoop availableTags selectedTags rest

/-- MessageProcessor.parseTagSelection. -/
def parseTagSelection (availableTags : List String) (text : String) :
    List String :=
  if jsStartsWith text "新規:" then
    let newTag := jsTrim (jsDrop 3 text)
    if 0 < jsLength newTag ∧ jsLength newTag ≤ 20 then [newTag] else []
  else
    let tagNumbers := (jsSplitComma text).map (fun num => jsParseInt (jsTrim num))
    selectTagsLoop availableTags [] tagNumbers

/-- MessageProcessor.formatAvailableTags. -/
def formatAvailableTags (cfg : Config) : String :=
  String.intercalate "\n"
    (cfg.blog.availableTags.enum.map (fun p => toString (p.1 + 1) ++ ". " ++ p.2))

/-- MessageProcessor.generateConfirmationMessage; a JS template literal
renders `undefined` fields as the string undefined. -/
def generateConfirmationMessage (s : ConversationState) : String :=
  "投稿内容を確認してください:\n\n" ++
    "📝 タイトル: " ++ (match s.data.title with
      | some t => t
      | none => "undefined") ++ "\n\n" ++
    "📄 本文: " ++ (match s.data.content with
      | some c => String.mk (c.data.take 100)
      | none => "undefined") ++
    (match s.data.content with
      | some c => if 100 < jsLength c then "..." else ""
      | none => "") ++ "\n\n" ++
    "🏷️ タグ: " ++ String.intercalate ", " s.data.tags ++ "\n\n" ++
    "📸 画像: 添付済み\n\n" ++
    "この内容で投稿を公開しますか？\n" ++
    "「はい」で公開、「いいえ」でキャンセルしてください。"

/-- MessageProcessor.handleTagSelection. The whole body sits in a try/catch
whose catch produces the tag-error reply; `parseTagSelection` itself cannot
throw, so the only throwing call inside the try block is `transitionToNext`. -/
def handleTagSelection (cfg : Config) (text : String) (s : ConversationState)
    (now : Nat) : ProcessingResult :=
  let selectedTags := parseTagSelection cfg.blog.availableTags text
  if selectedTags.length = 0 then
    { responseMessage := some ("有効なタグを選択してください。\n\n" ++
        formatAvailableTags cfg ++ "\n\n" ++
        "タグ番号をカンマ区切りで入力してください（例: 1,3,5）") }
  else
    match transitionToNext s { tags := some selectedTags } now with
    | .ok nextState =>
        { nextState := some nextState
          responseMessage := some (generateConfirmationMessage nextState) }
    | .error _ =>
        { responseMessage := some ("タグの選択でエラーが発生しました。\n\n" ++
            formatAvailableTags cfg ++ "\n\n" ++
            "もう一度タグ番号を入力してください。") }

/-- MessageProcessor.handleConfirmation. -/
def handleConfirmation (cfg : Config) (text : String) (s : ConversationState)
    (now : Nat) : Except Thrown ProcessingResult :=
  let lowerText := jsTrim (jsToLower text)
  if (["はい", "yes", "y", "公開", "投稿", "ok"] : List String).contains
      lowerText then
    match transitionTo s .idle {} now with
    | .error e => .error (.flow e)
    | .ok nextState =>
        .ok { nextState := some nextState
              responseMessage := some ("投稿を公開しました！🎉\n\n" ++
                "ブログURL: " ++ cfg.blog.baseUrl ++ "\n\n" ++
                "新しい投稿を作成するには「投稿作成」と送信してください。") }
  else if (["いいえ", "no", "n", "キャンセル", "修正"] : List String).contains
      lowerText then
    match transitionTo s .idle {} now with
    | .error e => .error (.flow e)
    | .ok nextState =>
        .ok { nextState := some nextState
              responseMessage := some ("投稿をキャンセルしました。\n\n" ++
                "新しい投稿を作成するには「投稿作成」と送信してください。") }
  else
    .ok { responseMessage := some ("「はい」または「いいえ」で回答してください。\n\n" ++
            "投稿を公開する場合は「はい」\n" ++
            "キャンセルする場合は「いいえ」と送信してください。") }

/-- MessageProcessor.processTextMessage: trim, intercept global commands,
then dispatch on the current step. The `default` branch of the source switch
is unreachable for enum-typed steps and has no counterpart here. -/
def processTextMessage (cfg : Config) (text : String) (s : ConversationState)
    (now : Nat) : Except Thrown ProcessingResult :=
  let trimmedText := jsTrim text
  if isGlobalCommand trimmedText then
    handleGlobalCommand trimmedText s now
  else
    match s.step with
    | .idle => .ok handleIdleState
    | .waitingTitle => handleTitleInput trimmedText s now
    | .waitingContent => handleContentInput trimmedText s now
    | .waitingImage => .ok handleImageWaitingState
    | .waitingTags => .ok (handleTagSelection cfg trimmedText s now)
    | .confirming => handleConfirmation cfg trimmedText s now

/-! Image pipeline (image/processor.ts, BaseImageProcessor). The sharp
library is an external collaborator: its metadata decode is modelled by the
decode result carried on the buffer, and its resize/encode chain by an
explicit environment. -/

deriving instance DecidableEq for Except

/-- Model of `String.prototype.toUpperCase` (ASCII case map; applied only to
format names, which are ASCII). -/
def jsToUpper (s : String) : String :=
  String.mk (s.data.map Char.toUpper)

/-- Metadata sharp reports for a byte buffer (`sharp(buf).metadata()`);
`format := none` or `width/height := 0` model falsy (undefined or zero)
fields, which the source treats alike. -/
structure ImageMeta where
  format : Option String
  width : Nat
  height : Nat
deriving DecidableEq, Repr

/-- A byte buffer, modelled by what the external world can observe of it: the
sharp decode outcome (`Except` message models `metadata()` throwing) and the
byte length; a second constructor tracks buffers produced by the sharp
resize-and-encode chain, recording the JPEG quality and output dimensions. -/
inductive Buffer where
  | bytes (decoded : Except String ImageMeta) (len : Nat)
  | jpegEncoded (quality w h len : Nat)
deriving DecidableEq, Repr

/-- Decode outcome of a buffer: a sharp-produced JPEG decodes back to a JPEG
of the recorded dimensions. -/
def Buffer.decodeResult : Buffer → Except String ImageMeta
  | .bytes d _ => d
  | .jpegEncoded _ w h _ => .ok { format := some "jpeg", width := w, height := h }

/-- The `length` property of a buffer. -/
def Buffer.byteLength : Buffer → Nat
  | .bytes _ l => l
  | .jpegEncoded _ _ _ l => l

/-- ImageValidationResult from image/processor.ts. -/
structure ImageValidationResult where
  isValid : Bool
  mimeType : String
  width : Nat
  height : Nat
  size : Nat
  format : String
deriving DecidableEq, Repr

/-- The `maxFileSize` class constant: 10 * 1024 * 1024 bytes. -/
def maxFileSize : Nat := 10 * 1024 * 1024

/-- The `maxWidth` class constant. -/
def maxWidth : Nat := 2048

/-- The `maxHeight` class constant. -/
def maxHeight : Nat := 2048

/-- The `supportedFormats` class constant. -/
def supportedFormats : List String := ["jpeg", "jpg", "png", "webp", "gif"]

/-- BaseImageProcessor.validateImage. The try/catch rethrows ValidationError
unchanged and wraps any other thrown error (sharp failing to decode) into the
generic validation failure. -/
def validateImage (buf : Buffer) : Except LineBotError ImageValidationResult :=
  match buf.decodeResult with
  | .error m =>
      .error (.validation ("Image validation failed: " ++ m)
        "画像の検証に失敗しました。")
  | .ok meta =>
      if meta.format = none ∨ meta.format = some "" ∨ meta.width = 0 ∨
          meta.height = 0 then
        .error (.validation "Invalid image metadata"
          "画像の形式を読み取れませんでした。")
      else
        let format := jsToLower (meta.format.getD "")
        if supportedFormats.contains format = false then
          .error (.validation ("Unsupported image format: " ++ format)
            ("サポートされていない画像形式です: " ++ jsToUpper format))
        else
          let size := buf.byteLength
          if maxFileSize < size then
            .error (.validation
              ("Image file too large: " ++ toString size ++ " bytes")
              "画像ファイルが大きすぎます。最大10MBまでです。")
          else
            .ok { isValid := true
                  mimeType := "image/" ++ (if format = "jpg" then "jpeg" else format)
                  width := meta.width
                  height := meta.height
                  size := size
                  format := format }

/-- Environment for the sharp resize-and-encode chain: whether it throws,
its error message, and the byte length of the JPEG it produces. -/
structure SharpEnv where
  resizeFails : Bool
  resizeErrMsg : String
  jpegLen : Nat
deriving DecidableEq, Repr

/-- Rounding of `num / den` to the nearest integer, halves up
(`Math.round`), computed as `floor((2*num + den) / (2*den))`. -/
def jsRoundDiv (num den : Nat) : Nat :=
  (2 * num + den) / (2 * den)

/-- Modelled dimension arithmetic of sharp `resize(bound, bound,
fit: inside, withoutEnlargement: true)`: one common scale factor
`min(bound/w, bound/h)` (capped at 1) is applied to both dimensions and the
results are rounded to the nearest integer, clamped to at least one pixel. -/
def fitInside (w h bound : Nat) : Nat × Nat :=
  if w ≤ bound ∧ h ≤ bound then (w, h)
  else if h ≤ w then (bound, max 1 (jsRoundDiv (h * bound) w))
  else (max 1 (jsRoundDiv (w * bound) h), bound)

/-- BaseImageProcessor.resizeImageIfNeeded: a no-op when both dimensions are
within bounds, otherwise the sharp chain `resize(2048, 2048, inside,
withoutEnlargement).jpeg(quality 85)`; its failure is wrapped into a
ProcessingError. -/
def resizeImageIfNeeded (env : SharpEnv) (buf : Buffer)
    (validation : ImageValidationResult) : Except LineBotError Buffer :=
  if validation.width ≤ maxWidth ∧ validation.height ≤ maxHeight then
    .ok buf
  else if env.resizeFails then
    .error (.processing ("Image resize failed: " ++ env.resizeErrMsg)
      "画像のリサイズに失敗しました。")
  else
    let dims := fitInside validation.width validation.height maxWidth
    .ok (.jpegEncoded 85 dims.1 dims.2 env.jpegLen)

/-- Environment for filename and path generation (BaseImageProcessor uses
the current time and `Math.random`). -/
structure NameEnv where
  timestamp : String
  randomSuffix : String
  year : String
  month : String
deriving DecidableEq, Repr

/-- BaseImageProcessor.generateFilename; `originalFormat || 'jpeg'` treats
an absent or empty format as jpeg, and `jpg` maps to `jpeg`. -/
def generateFilename (env : NameEnv) (originalFormat : Option String) :
    String :=
  let extension :=
    match originalFormat with
    | some "jpg" => "jpeg"
    | some "" => "jpeg"
    | some f => f
    | none => "jpeg"
  env.timestamp ++ "-" ++ env.randomSuffix ++ "." ++ extension

/-- BaseImageProcessor.generateImagePath. -/
def generateImagePath (env : NameEnv) (originalName : Option String) :
    String :=
  let filename :=
    match originalName with
    | some "" => generateFilename env none
    | some n => n
    | none => generateFilename env none
  "source/images/" ++ env.year ++ "/" ++ env.month ++ "/" ++ filename

/-- ProcessedImage from types.ts. -/
structure ProcessedImage where
  buffer : Buffer
  filename : String
  relativePath : String
  tempStorageKey : String
  mimeType : String
  size : Nat
deriving DecidableEq, Repr

/-- Environment for one run of the pipeline: the sharp chain, the naming
inputs, and the temp-storage upload outcome (`Except` message models the
upload collaborator throwing). -/
structure PipelineEnv where
  sharp : SharpEnv
  name : NameEnv
  upload : Except String String
deriving DecidableEq, Repr

/-- The source re-validates with `processedBuffer !== imageBuffer`, a
reference comparison that is true exactly when the resize branch ran (sharp
always returns a fresh buffer object). -/
def wasResized (validation : ImageValidationResult) : Bool :=
  !(validation.width ≤ maxWidth ∧ validation.height ≤ maxHeight)

/-- BaseImageProcessor.processImage: validate, resize if needed, name,
upload, optionally re-validate. Its catch rethrows ValidationError and
ProcessingError unchanged and wraps anything else (the upload throwing) into
a generic ProcessingError. -/
def processImage (env : PipelineEnv) (buf : Buffer) :
    Except LineBotError ProcessedImage :=
  match validateImage buf with
  | .error e => .error e
  | .ok validation =>
      match resizeImageIfNeeded env.sharp buf validation with
      | .error e => .error e
      | .ok processedBuffer =>
          let filename := generateFilename env.name (some validation.format)
          let relativePath := generateImagePath env.name (some filename)
          match env.upload with
          | .error m =>
              .error (.processing ("Image processing failed: " ++ m)
                "画像の処理に失敗しました。")
          | .ok tempStorageKey =>
              match (if wasResized validation then validateImage processedBuffer
                     else .ok validation) with
              | .error e => .error e
              | .ok finalValidation =>
                  .ok { buffer := processedBuffer
                        filename := filename
                        relativePath := relativePath
                        tempStorageKey := tempStorageKey
                        mimeType := finalValidation.mimeType
                        size := finalValidation.size }

/-! Image-message handling and the full dispatcher. -/

/-- Environment for one image message: the LINE download outcome and the
pipeline environment. -/
structure ImageEnv where
  download : Except String Buffer
  pipeline : PipelineEnv
deriving DecidableEq, Repr

/-- The catch block of MessageProcessor.processImageMessage: the generic
reply unless `error.message` contains one of three Japanese markers, in
which case `error.message` plus the format reminder is used. -/
def imageErrorReply (e : Thrown) : String :=
  if jsIncludes e.message "サポートされていない" ||
      jsIncludes e.message "大きすぎます" ||
      jsIncludes e.message "検証に失敗" then
    e.message ++ "\n\n対応形式: JPEG, PNG, WebP, GIF（最大10MB）"
  else
    "画像の処理中にエラーが発生しました。もう一度画像を送信してください。"

/-- MessageProcessor.processImageMessage: reject outside WAITING_IMAGE, else
download, run the pipeline, transition, and build the tag-menu reply; the
surrounding try/catch turns any thrown error into a reply with no state. -/
def processImageMessage (cfg : Config) (env : ImageEnv)
    (s : ConversationState) (now : Nat) : ProcessingResult :=
  if s.step ≠ .waitingImage then
    { responseMessage := some ("画像は投稿作成中の画像送信段階でのみ受け付けています。\n" ++
        "「投稿作成」と送信して最初から始めてください。") }
  else
    let attempt : Except Thrown ConversationState :=
      match env.download with
      | .error m => .error (.plain m)
      | .ok imageBuffer =>
          match processImage env.pipeline imageBuffer with
          | .error e => .error (.lineBot e)
          | .ok processedImage =>
              match transitionToNext s
                  { imageUrl := some processedImage.tempStorageKey
                    imagePath := some processedImage.relativePath } now with
              | .error e => .error (.flow e)
              | .ok nextState => .ok nextState
    match attempt with
    | .ok nextState =>
        { nextState := some nextState
          responseMessage := some ("画像を受信しました！📸\n\n" ++
            "次にタグを選択してください。\n" ++
            "利用可能なタグ:\n" ++
            formatAvailableTags cfg ++ "\n\n" ++
            "タグ番号をカンマ区切りで入力してください（例: 1,3,5）\n" ++
            "新しいタグを追加する場合は「新規:タグ名」と入力してください。") }
    | .error e => { responseMessage := some (imageErrorReply e) }

/-- LineMessage from types.ts: a type tag plus optional text and id. -/
structure LineMessage where
  type : String
  text : Option String := none
  id : Option String := none
deriving DecidableEq, Repr

/-- MessageProcessor.processMessage: text messages need `text !==
undefined`, image messages a truthy (non-empty) id; anything else gets the
unsupported-type reply. The outer try/catch logs and rethrows. -/
def processorProcessMessage (cfg : Config) (env : ImageEnv)
    (message : LineMessage) (s : ConversationState) (now : Nat) :
    Except Thrown ProcessingResult :=
  if message.type = "text" ∧ message.text ≠ none then
    processTextMessage cfg (message.text.getD "") s now
  else if message.type = "image" ∧ message.id ≠ none ∧ message.id ≠ some "" then
    .ok (processImageMessage cfg env s now)
  else
    .ok { responseMessage := some ("すみません、そのメッセージタイプには対応していません。\n" ++
            "テキストメッセージまたは画像を送信してください。") }

/-! ConversationManager (conversation/manager.ts), with the session-store
calls it issues recorded as a trace. -/

/-- One call to the session store. -/
inductive StorageOp where
  | getOp
  | setOp (state : ConversationState)
deriving DecidableEq, Repr

/-- ConversationManager.processMessage for one user, returning the processor
outcome together with the ordered list of session-store calls:
`getCurrentState` reads once and, for a user with no stored state, writes a
fresh idle state immediately; after processing, a changed state is written
once; a processor error is rethrown after the error reply (no store call). -/
def managerProcessMessage (cfg : Config) (env : ImageEnv)
    (stored : Option ConversationState) (message : LineMessage) (now : Nat) :
    Except Thrown ProcessingResult × List StorageOp :=
  let read :=
    match stored with
    | some s => (s, [StorageOp.getOp])
    | none => (createIdleState now, [StorageOp.getOp, StorageOp.setOp (createIdleState now)])
  match processorProcessMessage cfg env message read.1 now with
  | .error e => (.error e, read.2)
  | .ok result =>
      match result.nextState with
      | some ns => (.ok result, read.2 ++ [StorageOp.setOp ns])
      | none => (.ok result, read.2)

/-! Sample fixtures used by concrete evaluations. -/

/-- A small configuration with a three-entry tag catalogue. -/
def sampleConfig : Config :=
  { blog := { baseUrl := "https://example.com", availableTags := ["A", "B", "C"] } }

/-- A fully-populated post record. -/
def sampleFullData : PostData :=
  { title := some "T", content := some "C", imageUrl := some "U",
    imagePath := some "P", tags := ["A"] }

/-- A conversation state at the given step carrying `sampleFullData`. -/
def stateAt (p : ConversationStep) : ConversationState :=
  { step := p, data := sampleFullData, createdAt := 0, updatedAt := 0 }

/-- C2 (code bug): the start-new-post command is interposed before per-step
handling but `handleGlobalCommand` calls `transitionTo(state, WAITING_TITLE)`
without checking the current step, so from the reachable state WAITING_TITLE
(reached here by sending the command once from IDLE) sending 投稿作成 again
raises the invalid-transition error that the spec says must be unreachable
through validated user input. -/
theorem startCommand_transitionError_reachable :
    (processTextMessage sampleConfig "投稿作成" (createIdleState 0) 1).toOption.bind
        ProcessingResult.nextState =
      some { step := .waitingTitle, data := { tags := [] }, createdAt := 0,
             updatedAt := 1 } ∧
    processTextMessage sampleConfig "投稿作成"
        { step := .waitingTitle, data := { tags := [] }, createdAt := 0,
          updatedAt := 1 } 2 =
      .error (.flow (.invalidTransition .waitingTitle .waitingTitle)) := by
  constructor
  · decide
  · decide

/-- C3 (counterexample): completing from CONFIRMING with an affirmative
reply resets the step to IDLE but keeps the accumulated post data (title,
content, image reference and tags all survive), contradicting the claim that
the data is cleared. -/
theorem confirmation_reset_keeps_data :
    (handleConfirmation sampleConfig "はい" (stateAt .confirming) 2).toOption.bind
        ProcessingResult.nextState =
      some { step := .idle, data := sampleFullData, createdAt := 0,
             updatedAt := 2 } ∧
    sampleFullData.title = some "T" ∧ sampleFullData.tags = ["A"] := by
  refine ⟨by decide, rfl, rfl⟩

/-- C3 (amended): on affirmative or negative confirmation, and on the cancel
command from any non-IDLE step, the state is reset to step IDLE with the
accumulated post data retained unchanged (and the state is returned, not
deleted); data is not cleared on this path. -/
theorem confirm_and_cancel_reset_step_and_keep_data (cfg : Config)
    (s : ConversationState) (now : Nat) (t : String) :
    (s.step = .confirming →
      (["はい", "yes", "y", "公開", "投稿", "ok"] : List String).contains
          (jsTrim (jsToLower t)) = true →
      ∃ r, handleConfirmation cfg t s now = .ok r ∧
        r.nextState = some { s with step := .idle, updatedAt := now }) ∧
    (s.step = .confirming →
      (["いいえ", "no", "n", "キャンセル", "修正"] : List String).contains
          (jsTrim (jsToLower t)) = true →
      ∃ r, handleConfirmation cfg t s now = .ok r ∧
        r.nextState = some { s with step := .idle, updatedAt := now }) ∧
    (s.step ≠ .idle →
      ∃ r, handleGlobalCommand "キャンセル" s now = .ok r ∧
        r.nextState = some { s with step := .idle, updatedAt := now }) := by
  have hvalid : s.step ≠ .idle → isValidTransition s.step .idle = true := by
    cases s.step <;> simp [isValidTransition]
  have hupd : updateStateStep s .idle {} now =
      { s with step := .idle, updatedAt := now } := rfl
  refine ⟨?_, ?_, ?_⟩
  · intro h1 h2
    have hs : s.step ≠ .idle := by rw [h1]; simp
    have heq : handleConfirmation cfg t s now = .ok
        { nextState := some (updateStateStep s .idle {} now)
          responseMessage := some ("投稿を公開しました！🎉\n\n" ++
            "ブログURL: " ++ cfg.blog.baseUrl ++ "\n\n" ++
            "新しい投稿を作成するには「投稿作成」と送信してください。") } := by
      simp only [handleConfirmation, h2, if_true, transitionTo, hvalid hs]
    exact ⟨_, heq, by simp [hupd]⟩
  · intro h1 h2
    have hs : s.step ≠ .idle := by rw [h1]; simp
    have hnotaff :
        (["はい", "yes", "y", "公開", "投稿", "ok"] : List String).contains
          (jsTrim (jsToLower t)) = false := by
      have hmem : jsTrim (jsToLower t) ∈
          (["いいえ", "no", "n", "キャンセル", "修正"] : List String) :=
        List.elem_iff.mp h2
      simp only [List.mem_cons, List.not_mem_nil, or_false] at hmem
      rcases hmem with h | h | h | h | h <;> rw [h] <;> decide
    have heq : handleConfirmation cfg t s now = .ok
        { nextState := some (updateStateStep s .idle {} now)
          responseMessage := some ("投稿をキャンセルしました。\n\n" ++
            "新しい投稿を作成するには「投稿作成」と送信してください。") } := by
      simp only [handleConfirmation, hnotaff, Bool.false_eq_true, if_false,
        h2, if_true, transitionTo, hvalid hs]
    exact ⟨_, heq, by simp [hupd]⟩
  · intro hs
    have heq : handleGlobalCommand "キャンセル" s now = .ok
        { nextState := some (updateStateStep s .idle {} now)
          responseMessage := some ("投稿作成をキャンセルしました。\n\n" ++
            "新しい投稿を作成するには「投稿作成」と送信してください。") } := by
      have hlow : jsToLower "キャンセル" = "キャンセル" := by decide
      simp only [handleGlobalCommand, hlow]
      rw [if_neg (by decide), if_neg (by decide), if_pos (by decide)]
      have hcc : canCancel s.step = true := by
        simp [canCancel, hs]
      simp only [hcc, if_true, transitionTo, hvalid hs]
    exact ⟨_, heq, by simp [hupd]⟩

/-- C3 (witness): the amended statement applied to a concrete confirming
state and a concrete waiting-content state. -/
theorem confirm_and_cancel_keep_data_witness :
    (∃ r, handleConfirmation sampleConfig "はい" (stateAt .confirming) 5 = .ok r ∧
      r.nextState = some { stateAt .confirming with step := .idle, updatedAt := 5 }) ∧
    (∃ r, handleGlobalCommand "キャンセル" (stateAt .waitingContent) 5 = .ok r ∧
      r.nextState = some { stateAt .waitingContent with step := .idle, updatedAt := 5 }) :=
  ⟨(confirm_and_cancel_reset_step_and_keep_data sampleConfig
      (stateAt .confirming) 5 "はい").1 rfl (by decide),
   (confirm_and_cancel_reset_step_and_keep_data sampleConfig
      (stateAt .waitingContent) 5 "x").2.2 (by decide)⟩

/-- A pipeline environment whose collaborators all succeed. -/
def samplePipelineEnv : PipelineEnv :=
  { sharp := { resizeFails := false, resizeErrMsg := "boom", jpegLen := 1234 }
    name := { timestamp := "2026-10-12T00-00-00-000Z", randomSuffix := "abc123",
              year := "2026", month := "10" }
    upload := .ok "temp-key" }

/-- C5 (counterexample): a buffer of exactly 10 MiB that decodes as a valid
100×100 JPEG passes validation — the source compares with strict `size >
maxFileSize` — so a byte length of at least 10 MiB does not imply a
ValidationError. -/
theorem validateImage_accepts_exactly_ten_mib :
    validateImage (.bytes (.ok { format := some "jpeg", width := 100, height := 100 })
        (10 * 1024 * 1024)) =
      .ok { isValid := true, mimeType := "image/jpeg", width := 100,
            height := 100, size := 10 * 1024 * 1024, format := "jpeg" } := by
  decide

/-- C5 (amended): every buffer strictly larger than 10 MiB fails stage-1
validation with a ValidationError, and `processImage` propagates that same
error, regardless of whether the bytes decode as a supported image. -/
theorem validateImage_rejects_over_ten_mib (buf : Buffer) (env : PipelineEnv)
    (h : maxFileSize < buf.byteLength) :
    ∃ m u, validateImage buf = .error (.validation m u) ∧
      processImage env buf = .error (.validation m u) := by
  have hval : ∃ m u, validateImage buf = .error (.validation m u) := by
    rcases hd : buf.decodeResult with em | meta
    · exact ⟨"Image validation failed: " ++ em, "画像の検証に失敗しました。",
        by simp [validateImage, hd]⟩
    · by_cases h1 : meta.format = none ∨ meta.format = some "" ∨
          meta.width = 0 ∨ meta.height = 0
      · exact ⟨"Invalid image metadata", "画像の形式を読み取れませんでした。",
          by simp [validateImage, hd, h1]⟩
      · by_cases h2 : supportedFormats.contains
            (jsToLower (meta.format.getD "")) = false
        · exact ⟨"Unsupported image format: " ++ jsToLower (meta.format.getD ""),
            "サポートされていない画像形式です: " ++ jsToUpper (jsToLower (meta.format.getD "")),
            by simp only [validateImage, hd]; rw [if_neg h1, if_pos h2]⟩
        · exact ⟨"Image file too large: " ++ toString buf.byteLength ++ " bytes",
            "画像ファイルが大きすぎます。最大10MBまでです。",
            by simp only [validateImage, hd]; rw [if_neg h1, if_neg h2, if_pos h]⟩
  obtain ⟨m, u, hv⟩ := hval
  refine ⟨m, u, hv, ?_⟩
  unfold processImage
  rw [hv]

/-- C5 (witness): the amended statement applied to a buffer one byte over
the ceiling whose bytes do decode as a valid JPEG. -/
theorem validateImage_rejects_over_ten_mib_witness :
    maxFileSize <
      (Buffer.bytes (.ok { format := some "jpeg", width := 2, height := 2 })
        (10 * 1024 * 1024 + 1)).byteLength ∧
    ∃ m u,
      validateImage (.bytes (.ok { format := some "jpeg", width := 2, height := 2 })
          (10 * 1024 * 1024 + 1)) = .error (.validation m u) ∧
      processImage samplePipelineEnv
          (.bytes (.ok { format := some "jpeg", width := 2, height := 2 })
            (10 * 1024 * 1024 + 1)) = .error (.validation m u) :=
  ⟨by decide,
   validateImage_rejects_over_ten_mib _ samplePipelineEnv (by decide)⟩

/-- A buffer whose bytes decode as a 10×10 BMP (an unsupported format). -/
def bmpBuffer : Buffer :=
  .bytes (.ok { format := some "bmp", width := 10, height := 10 }) 5

/-- An image-message environment that downloads `bmpBuffer`. -/
def bmpImageEnv : ImageEnv :=
  { download := .ok bmpBuffer, pipeline := samplePipelineEnv }

/-- C4 (code bug): for an unsupported-format image in WAITING_IMAGE the
pipeline throws a ValidationError whose `userMessage` is the user-facing
validation text, but the dispatcher's catch block inspects `error.message`
(the technical English text) for Japanese markers that only ever occur in
`userMessage`, so the reply is the generic image-processing-failed text
instead of the validation message; the state is left unchanged. -/
theorem imageValidationError_reply_is_generic :
    processImage samplePipelineEnv bmpBuffer =
      .error (.validation "Unsupported image format: bmp"
        "サポートされていない画像形式です: BMP") ∧
    processImageMessage sampleConfig bmpImageEnv (stateAt .waitingImage) 3 =
      { nextState := none
        responseMessage :=
          some "画像の処理中にエラーが発生しました。もう一度画像を送信してください。" } := by
  constructor
  · decide
  · decide

/-! Spec-side description of tag parsing, for the comparison with the source
`parseTagSelection`. -/

/-- Resolution of an already-parsed 1-based index into the catalogue:
unparseable (NaN) and out-of-range values are dropped, in-range ones resolve
to their tag string. -/
def resolveNum (availableTags : List String) : Option Int → Option String
  | none => none
  | some n =>
      if 1 ≤ n ∧ n ≤ (availableTags.length : Int) then
        some (availableTags.getD (n.toNat - 1) "")
      else none

/-- Modelled from the spec: parse one comma-separated token as a 1-based
index into the catalogue and resolve it. -/
def resolveIndex (availableTags : List String) (token : String) :
    Option String :=
  resolveNum availableTags (jsParseInt (jsTrim token))

/-- Modelled from the spec: deduplication preserving first-occurrence
order (keep the head, deduplicate the tail, then drop later copies of the
head). -/
def dedupFirst : List String → List String
  | [] => []
  | t :: rest => t :: (dedupFirst rest).filter (fun x => x ≠ t)

/-- Modelled from the spec's description of tag-selection parsing: the
new-tag form keeps the trimmed remainder exactly when its length is in
`[1, 20]`; otherwise split on commas, resolve 1-based indices, drop invalid
tokens, and deduplicate preserving first occurrence. -/
def parseTagSelectionSpec (availableTags : List String) (text : String) :
    List String :=
  if jsStartsWith text "新規:" then
    let r := jsTrim (jsDrop 3 text)
    if 1 ≤ jsLength r ∧ jsLength r ≤ 20 then [r] else []
  else
    dedupFirst ((jsSplitComma text).filterMap (resolveIndex availableTags))

/-- First-occurrence deduplication commutes with filtering. -/
theorem dedupFirst_filter (p : String → Bool) :
    ∀ l : List String, dedupFirst (l.filter p) = (dedupFirst l).filter p := by
  intro l
  induction l with
  | nil => rfl
  | cons a l ih =>
      by_cases hpa : p a = true
      · rw [List.filter_cons_of_pos hpa]
        simp only [dedupFirst]
        rw [ih, List.filter_cons_of_pos hpa, List.filter_comm]
      · rw [List.filter_cons_of_neg (by simpa using hpa)]
        simp only [dedupFirst]
        rw [ih, List.filter_cons_of_neg (by simpa using hpa), List.filter_comm]
        symm
        apply List.filter_eq_self.mpr
        intro x hx
        have hpx := List.of_mem_filter hx
        simp only [ne_eq, decide_eq_true_eq]
        rintro rfl
        exact hpa hpx

/-- The push-unless-present loop of `parseTagSelection` appends, after the
accumulator, the first-occurrence deduplication of the resolved indices not
already present in the accumulator. -/
theorem selectTagsLoop_eq (avail : List String) :
    ∀ (nums : List (Option Int)) (acc : List String),
      selectTagsLoop avail acc nums =
        acc ++ dedupFirst ((nums.filterMap (resolveNum avail)).filter
          (fun x => !acc.contains x)) := by
  intro nums
  induction nums with
  | nil => intro acc; simp [selectTagsLoop, dedupFirst]
  | cons num rest ih =>
      intro acc
      cases num with
      | none =>
          simp only [selectTagsLoop, List.filterMap_cons, resolveNum]
          exact ih acc
      | some n =>
          by_cases hb : 1 ≤ n ∧ n ≤ (avail.length : Int)
          · set tag := avail.getD (n.toNat - 1) "" with htag
            have hres : resolveNum avail (some n) = some tag := by
              simp [resolveNum, hb, htag]
            by_cases hmem : acc.contains tag = true
            · have hmemM : tag ∈ acc := List.elem_iff.mp hmem
              have hstep : selectTagsLoop avail acc (some n :: rest) =
                  selectTagsLoop avail acc rest := by
                simp only [selectTagsLoop]
                rw [if_pos hb, ← htag, if_pos hmem]
              rw [hstep, ih]
              simp only [List.filterMap_cons, hres]
              have hfc : List.filter (fun x => !acc.contains x)
                  (tag :: List.filterMap (resolveNum avail) rest) =
                  List.filter (fun x => !acc.contains x)
                    (List.filterMap (resolveNum avail) rest) := by
                simp [List.filter_cons, hmemM]
              rw [hfc]
            · have hmemM : tag ∉ acc := fun h => hmem (List.elem_iff.mpr h)
              have hstep : selectTagsLoop avail acc (some n :: rest) =
                  selectTagsLoop avail (acc ++ [tag]) rest := by
                simp only [selectTagsLoop]
                rw [if_pos hb, ← htag, if_neg hmem]
              rw [hstep, ih]
              simp only [List.filterMap_cons, hres]
              have hfc : List.filter (fun x => !acc.contains x)
                  (tag :: List.filterMap (resolveNum avail) rest) =
                  tag :: List.filter (fun x => !acc.contains x)
                      (List.filterMap (resolveNum avail) rest) := by
                simp [List.filter_cons, hmemM]
              rw [hfc]
              simp only [dedupFirst, List.append_assoc, List.singleton_append]
              congr 1
              congr 1
              have hpred : ∀ x : String,
                  (!((acc ++ [tag]).contains x)) =
                    (decide (x ≠ tag) && !(acc.contains x)) := by
                intro x
                by_cases h1 : x = tag
                · have hc : (acc ++ [tag]).contains tag = true :=
                    List.elem_iff.mpr (by simp)
                  simp [h1, hc]
                · by_cases h2 : x ∈ acc
                  · have ha : acc.contains x = true := List.elem_iff.mpr h2
                    have hb2 : (acc ++ [tag]).contains x = true :=
                      List.elem_iff.mpr (by simp [h2])
                    simp [ha, hb2, h1]
                  · have ha : acc.contains x = false := by
                      rw [← Bool.not_eq_true]
                      intro hc
                      exact h2 (List.elem_iff.mp hc)
                    have hb2 : (acc ++ [tag]).contains x = false := by
                      rw [← Bool.not_eq_true]
                      intro hc
                      rcases List.mem_append.mp (List.elem_iff.mp hc) with h | h
                      · exact h2 h
                      · exact h1 (by simpa using h)
                    simp [ha, hb2, h1]
              simp only [hpred]
              rw [← List.filter_filter]
              rw [dedupFirst_filter]
          · have hres : resolveNum avail (some n) = none := by
              simp [resolveNum, hb]
            have hstep : selectTagsLoop avail acc (some n :: rest) =
                selectTagsLoop avail acc rest := by
              simp only [selectTagsLoop]
              rw [if_neg hb]
            rw [hstep, ih]
            simp only [List.filterMap_cons, hres]

/-- C6: the source tag parsing agrees, on every input text and catalogue,
with the spec-worded description (new-tag prefix form keeping the trimmed
remainder exactly when its length is in [1, 20], otherwise comma-split
1-based indices with invalid tokens dropped and first-occurrence-preserving
deduplication); and the claim's concrete examples evaluate as stated. -/
theorem parseTagSelection_matches_spec :
    (∀ availableTags text,
      parseTagSelection availableTags text =
        parseTagSelectionSpec availableTags text) ∧
    parseTagSelection ["A", "B", "C"] "1,1,2" = ["A", "B"] ∧
    parseTagSelection ["A", "B", "C"] "99,100" = [] ∧
    parseTagSelection ["A", "B", "C"] "新規:X" = ["X"] := by
  refine ⟨?_, by decide, by decide, by decide⟩
  intro avail text
  unfold parseTagSelection parseTagSelectionSpec
  split
  · dsimp only
    split_ifs with h1 h2 h2 <;> first | rfl | (exfalso; omega)
  · rw [selectTagsLoop_eq]
    have hnil : ∀ l : List String,
        l.filter (fun x => !(([] : List String).contains x)) = l := by
      intro l
      apply List.filter_eq_self.mpr
      intro x _
      rfl
    rw [List.nil_append, hnil, List.filterMap_map]
    rfl

/-- A string of `n` copies of one character. -/
def repChar (n : Nat) (c : Char) : String :=
  String.mk (List.replicate n c)

/-- Length of a repeated-character string. -/
theorem jsLength_repChar (n : Nat) (c : Char) : jsLength (repChar n c) = n := by
  simp [jsLength, repChar]

/-- Trichotomy of `handleTitleInput` in WAITING_TITLE: empty rejected, over
100 characters rejected, otherwise the title is stored and the step
advances. -/
theorem handleTitleInput_cases (s : ConversationState) (now : Nat)
    (t : String) (hs : s.step = .waitingTitle) :
    (jsLength t = 0 → handleTitleInput t s now =
      .ok { responseMessage := some "タイトルを入力してください。" }) ∧
    (100 < jsLength t → handleTitleInput t s now =
      .ok { responseMessage := some "タイトルが長すぎます。100文字以内で入力してください。" }) ∧
    (1 ≤ jsLength t → jsLength t ≤ 100 → handleTitleInput t s now =
      .ok { nextState :=
              some (updateStateStep s .waitingContent { title := some t } now)
            responseMessage := some ("タイトル: \"" ++ t ++ "\"\n\n" ++
              "次に、投稿の本文を入力してください。") }) := by
  refine ⟨?_, ?_, ?_⟩
  · intro h
    simp only [handleTitleInput]
    rw [if_pos (by omega)]
  · intro h
    simp only [handleTitleInput]
    rw [if_neg (by omega), if_pos h]
  · intro h1 h2
    simp only [handleTitleInput]
    rw [if_neg (by omega), if_neg (by omega)]
    simp only [transitionToNext, hs, getNextStep]
    rw [if_pos (by decide)]

/-- Trichotomy of `handleContentInput` in WAITING_CONTENT. -/
theorem handleContentInput_cases (s : ConversationState) (now : Nat)
    (t : String) (hs : s.step = .waitingContent) :
    (jsLength t = 0 → handleContentInput t s now =
      .ok { responseMessage := some "本文を入力してください。" }) ∧
    (5000 < jsLength t → handleContentInput t s now =
      .ok { responseMessage := some "本文が長すぎます。5000文字以内で入力してください。" }) ∧
    (1 ≤ jsLength t → jsLength t ≤ 5000 → handleContentInput t s now =
      .ok { nextState :=
              some (updateStateStep s .waitingImage { content := some t } now)
            responseMessage := some ("本文を受信しました！📝\n\n" ++
              "次に、投稿に使用する画像を送信してください。\n" ++
              "（JPEG、PNG、GIF形式に対応しています）") }) := by
  refine ⟨?_, ?_, ?_⟩
  · intro h
    simp only [handleContentInput]
    rw [if_pos (by omega)]
  · intro h
    simp only [handleContentInput]
    rw [if_neg (by omega), if_pos h]
  · intro h1 h2
    simp only [handleContentInput]
    rw [if_neg (by omega), if_neg (by omega)]
    simp only [transitionToNext, hs, getNextStep]
    rw [if_pos (by decide)]

/-- C7: in WAITING_TITLE, empty input and input over 100 characters are each
rejected with a guidance reply and no state change, any other text is stored
as the title with the step advancing to WAITING_CONTENT; likewise for
WAITING_CONTENT with limit 5000 advancing to WAITING_IMAGE; and at the
boundary a 100-character title and a 5000-character body are accepted while
a 101-character title and a 5001-character body are rejected. -/
theorem title_content_validation_and_boundaries (s : ConversationState)
    (now : Nat) (t : String) :
    (s.step = .waitingTitle →
      (jsLength t = 0 → handleTitleInput t s now =
        .ok { responseMessage := some "タイトルを入力してください。" }) ∧
      (100 < jsLength t → handleTitleInput t s now =
        .ok { responseMessage := some "タイトルが長すぎます。100文字以内で入力してください。" }) ∧
      (1 ≤ jsLength t → jsLength t ≤ 100 → handleTitleInput t s now =
        .ok { nextState :=
                some (updateStateStep s .waitingContent { title := some t } now)
              responseMessage := some ("タイトル: \"" ++ t ++ "\"\n\n" ++
                "次に、投稿の本文を入力してください。") })) ∧
    (s.step = .waitingContent →
      (jsLength t = 0 → handleContentInput t s now =
        .ok { responseMessage := some "本文を入力してください。" }) ∧
      (5000 < jsLength t → handleContentInput t s now =
        .ok { responseMessage := some "本文が長すぎます。5000文字以内で入力してください。" }) ∧
      (1 ≤ jsLength t → jsLength t ≤ 5000 → handleContentInput t s now =
        .ok { nextState :=
                some (updateStateStep s .waitingImage { content := some t } now)
              responseMessage := some ("本文を受信しました！📝\n\n" ++
                "次に、投稿に使用する画像を送信してください。\n" ++
                "（JPEG、PNG、GIF形式に対応しています）") })) ∧
    ((handleTitleInput (repChar 100 'a') (stateAt .waitingTitle) 1).toOption.bind
        ProcessingResult.nextState).map ConversationState.step =
      some .waitingContent ∧
    handleTitleInput (repChar 101 'a') (stateAt .waitingTitle) 1 =
      .ok { responseMessage := some "タイトルが長すぎます。100文字以内で入力してください。" } ∧
    ((handleContentInput (repChar 5000 'a') (stateAt .waitingContent) 1).toOption.bind
        ProcessingResult.nextState).map ConversationState.step =
      some .waitingImage ∧
    handleContentInput (repChar 5001 'a') (stateAt .waitingContent) 1 =
      .ok { responseMessage := some "本文が長すぎます。5000文字以内で入力してください。" } := by
  refine ⟨handleTitleInput_cases s now t, handleContentInput_cases s now t,
    ?_, ?_, ?_, ?_⟩
  · have h := (handleTitleInput_cases (stateAt .waitingTitle) 1
      (repChar 100 'a') rfl).2.2
      (by rw [jsLength_repChar]; omega) (by rw [jsLength_repChar])
    rw [h]
    rfl
  · exact (handleTitleInput_cases (stateAt .waitingTitle) 1
      (repChar 101 'a') rfl).2.1 (by rw [jsLength_repChar]; omega)
  · have h := (handleContentInput_cases (stateAt .waitingContent) 1
      (repChar 5000 'a') rfl).2.2
      (by rw [jsLength_repChar]; omega) (by rw [jsLength_repChar])
    rw [h]
    rfl
  · exact (handleContentInput_cases (stateAt .waitingContent) 1
      (repChar 5001 'a') rfl).2.1 (by rw [jsLength_repChar]; omega)

/-- C7 (witness): the per-step parts applied to concrete inputs. -/
theorem title_content_validation_witness :
    handleTitleInput "abc" (stateAt .waitingTitle) 1 =
      .ok { nextState := some (updateStateStep (stateAt .waitingTitle)
              .waitingContent { title := some "abc" } 1)
            responseMessage := some ("タイトル: \"" ++ "abc" ++ "\"\n\n" ++
              "次に、投稿の本文を入力してください。") } :=
  ((title_content_validation_and_boundaries (stateAt .waitingTitle) 1 "abc").1
    rfl).2.2 (by decide) (by decide)

/-- A small valid 100×100 PNG buffer. -/
def samplePngBuffer : Buffer :=
  .bytes (.ok { format := some "png", width := 100, height := 100 }) 10

/-- An image-message environment whose collaborators succeed on a small
valid PNG. -/
def sampleImageEnv : ImageEnv :=
  { download := .ok samplePngBuffer
    pipeline := samplePipelineEnv }

/-- C8 (counterexample): for a first-contact user (no stored state) sending
the start command, the orchestrator issues two writes in one invocation —
`getCurrentState` writes the fresh idle state immediately after the read,
before message processing, and the changed state is written again at the
end. -/
theorem manager_first_contact_double_write :
    (managerProcessMessage sampleConfig sampleImageEnv none
        { type := "text", text := some "投稿作成" } 0).2 =
      [.getOp, .setOp (createIdleState 0),
       .setOp (updateStateStep (createIdleState 0) .waitingTitle {} 0)] := by
  decide

/-- C8 (amended): within one invocation the session state is read exactly
once at the start; for a user with existing stored state it is written at
most once, at the end; for a first-contact user one initialization write of
the fresh idle state happens immediately after the read and at most one
further write happens at the end. -/
theorem manager_storage_trace (cfg : Config) (env : ImageEnv)
    (stored : Option ConversationState) (msg : LineMessage) (now : Nat) :
    (∀ s, stored = some s →
      (managerProcessMessage cfg env stored msg now).2 = [.getOp] ∨
      ∃ ns, (managerProcessMessage cfg env stored msg now).2 =
        [.getOp, .setOp ns]) ∧
    (stored = none →
      (managerProcessMessage cfg env stored msg now).2 =
        [.getOp, .setOp (createIdleState now)] ∨
      ∃ ns, (managerProcessMessage cfg env stored msg now).2 =
        [.getOp, .setOp (createIdleState now), .setOp ns]) := by
  constructor
  · intro s hsome
    subst hsome
    unfold managerProcessMessage
    cases hp : processorProcessMessage cfg env msg s now with
    | error e => left; simp [hp]
    | ok result =>
        cases hn : result.nextState with
        | none => left; simp [hp, hn]
        | some ns => right; exact ⟨ns, by simp [hp, hn]⟩
  · intro hnone
    subst hnone
    unfold managerProcessMessage
    cases hp : processorProcessMessage cfg env msg (createIdleState now) now with
    | error e => left; simp [hp]
    | ok result =>
        cases hn : result.nextState with
        | none => left; simp [hp, hn]
        | some ns => right; exact ⟨ns, by simp [hp, hn]⟩

/-- C8 (witness): the amended statement applied to a stored idle state and a
concrete help-command message. -/
theorem manager_storage_trace_witness :
    (managerProcessMessage sampleConfig sampleImageEnv
        (some (createIdleState 0)) { type := "text", text := some "ヘルプ" } 1).2 =
      [.getOp] ∨
    ∃ ns, (managerProcessMessage sampleConfig sampleImageEnv
        (some (createIdleState 0)) { type := "text", text := some "ヘルプ" } 1).2 =
      [.getOp, .setOp ns] :=
  (manager_storage_trace sampleConfig sampleImageEnv (some (createIdleState 0))
    { type := "text", text := some "ヘルプ" } 1).1 (createIdleState 0) rfl

/-- Rounding of a quotient is at most `bound` when the numerator is at most
`den * bound`. -/
theorem jsRoundDiv_le {num den bound : Nat} (hden : 0 < den)
    (h : num ≤ den * bound) : jsRoundDiv num den ≤ bound := by
  unfold jsRoundDiv
  have h2 : 2 * num + den < (bound + 1) * (2 * den) := by nlinarith
  have h3 := (Nat.div_lt_iff_lt_mul (by omega : 0 < 2 * den)).mpr h2
  omega

/-- Bounds of the modelled fit-inside resize: when at least one dimension
exceeds the bound, both output dimensions are positive, at most the bound,
and no larger than the originals. -/
theorem fitInside_bounds (w h : Nat) (hw : 1 ≤ w) (hh : 1 ≤ h)
    (hbound : ¬(w ≤ 2048 ∧ h ≤ 2048)) :
    (fitInside w h 2048).1 ≤ 2048 ∧ (fitInside w h 2048).2 ≤ 2048 ∧
    (fitInside w h 2048).1 ≤ w ∧ (fitInside w h 2048).2 ≤ h ∧
    1 ≤ (fitInside w h 2048).1 ∧ 1 ≤ (fitInside w h 2048).2 := by
  unfold fitInside
  rw [if_neg hbound]
  by_cases hwh : h ≤ w
  · rw [if_pos hwh]
    have hwbig : 2048 < w := by omega
    have hq1 : jsRoundDiv (h * 2048) w ≤ 2048 :=
      jsRoundDiv_le (by omega) (by nlinarith)
    have hq2 : jsRoundDiv (h * 2048) w ≤ h :=
      jsRoundDiv_le (by omega) (by nlinarith)
    exact ⟨le_refl _, max_le (by omega) hq1, by omega, max_le hh hq2,
      by omega, le_max_left _ _⟩
  · rw [if_neg hwh]
    have hhbig : 2048 < h := by omega
    have hq1 : jsRoundDiv (w * 2048) h ≤ 2048 :=
      jsRoundDiv_le (by omega) (by nlinarith)
    have hq2 : jsRoundDiv (w * 2048) h ≤ w :=
      jsRoundDiv_le (by omega) (by nlinarith)
    exact ⟨max_le (by omega) hq1, le_refl _, max_le hw hq2, by omega,
      le_max_left _ _, by omega⟩

/-- C9: resize-if-needed returns the input buffer unchanged when both
validated dimensions are at most 2048; when either exceeds 2048 it
re-encodes the result of the common-scale fit-inside resize as a
fixed-quality-85 JPEG whose output dimensions never exceed 2048 and never
exceed the originals (no upscaling); and a failure inside the stage raises a
ProcessingError, not a ValidationError. -/
theorem resizeImageIfNeeded_spec (env : SharpEnv) (buf : Buffer)
    (v : ImageValidationResult) (hw : 1 ≤ v.width) (hh : 1 ≤ v.height) :
    maxWidth = 2048 ∧ maxHeight = 2048 ∧
    (v.width ≤ maxWidth ∧ v.height ≤ maxHeight →
      resizeImageIfNeeded env buf v = .ok buf) ∧
    (¬(v.width ≤ maxWidth ∧ v.height ≤ maxHeight) →
      (env.resizeFails = true →
        resizeImageIfNeeded env buf v = .error (.processing
          ("Image resize failed: " ++ env.resizeErrMsg)
          "画像のリサイズに失敗しました。")) ∧
      (env.resizeFails = false →
        resizeImageIfNeeded env buf v = .ok (.jpegEncoded 85
          (fitInside v.width v.height maxWidth).1
          (fitInside v.width v.height maxWidth).2 env.jpegLen) ∧
        (fitInside v.width v.height maxWidth).1 ≤ 2048 ∧
        (fitInside v.width v.height maxWidth).2 ≤ 2048 ∧
        (fitInside v.width v.height maxWidth).1 ≤ v.width ∧
        (fitInside v.width v.height maxWidth).2 ≤ v.height)) := by
  refine ⟨rfl, rfl, ?_, ?_⟩
  · intro hsmall
    simp only [resizeImageIfNeeded]
    rw [if_pos hsmall]
  · intro hbig
    constructor
    · intro hf
      simp only [resizeImageIfNeeded]
      rw [if_neg hbig, if_pos hf]
    · intro hf
      have hb := fitInside_bounds v.width v.height hw hh
        (by simpa [maxWidth, maxHeight] using hbig)
      refine ⟨?_, hb.1, hb.2.1, hb.2.2.1, hb.2.2.2.1⟩
      simp only [resizeImageIfNeeded]
      rw [if_neg hbig, if_neg (by simp [hf])]

/-- A sharp environment that succeeds, producing a 1234-byte JPEG. -/
def sampleSharpEnv : SharpEnv :=
  { resizeFails := false, resizeErrMsg := "boom", jpegLen := 1234 }

/-- A validation result for an oversized 4096×1024 JPEG. -/
def sampleBigValidation : ImageValidationResult :=
  { isValid := true, mimeType := "image/jpeg", width := 4096, height := 1024,
    size := 10, format := "jpeg" }

/-- C9 (witness): the resize stage applied to a concrete oversized
validation result. -/
theorem resizeImageIfNeeded_spec_witness :
    resizeImageIfNeeded sampleSharpEnv samplePngBuffer sampleBigValidation =
      .ok (.jpegEncoded 85
        (fitInside sampleBigValidation.width sampleBigValidation.height maxWidth).1
        (fitInside sampleBigValidation.width sampleBigValidation.height maxWidth).2
        sampleSharpEnv.jpegLen) ∧
    (fitInside sampleBigValidation.width sampleBigValidation.height maxWidth).1 ≤ 2048 ∧
    (fitInside sampleBigValidation.width sampleBigValidation.height maxWidth).2 ≤ 2048 ∧
    (fitInside sampleBigValidation.width sampleBigValidation.height maxWidth).1 ≤
      sampleBigValidation.width ∧
    (fitInside sampleBigValidation.width sampleBigValidation.height maxWidth).2 ≤
      sampleBigValidation.height :=
  ((resizeImageIfNeeded_spec sampleSharpEnv samplePngBuffer sampleBigValidation
    (by decide) (by decide)).2.2.2 (by decide)).2 rfl

/-- The trailing-drop helper is Mathlib's `rdropWhile`. -/
theorem dropTrailing_eq_rdropWhile (p : Char → Bool) (l : List Char) :
    dropTrailing p l = List.rdropWhile p l := rfl

/-- Dropping a leading run from a list whose head already fails the
predicate is the identity; stated for the tail-trimmed image of an already
head-trimmed list. -/
theorem dropWhile_eq_self_of_rdrop {p : Char → Bool} {l : List Char}
    (h : List.dropWhile p l = l) :
    List.dropWhile p (List.rdropWhile p l) = List.rdropWhile p l := by
  obtain ⟨t, ht⟩ := List.rdropWhile_prefix p l
  cases hc : List.rdropWhile p l with
  | nil => rfl
  | cons a as =>
      have hl : l = a :: (as ++ t) := by
        rw [← ht, hc]
        simp
      have hpa : p a = false := by
        by_contra hpa'
        have hpa2 : p a = true := by simpa using hpa'
        rw [hl, List.dropWhile_cons, if_pos hpa2] at h
        have hlen := congrArg List.length h
        have hle : (List.dropWhile p (as ++ t)).length ≤ (as ++ t).length :=
          List.Sublist.length_le (List.dropWhile_sublist _)
        simp only [List.length_cons, List.length_append] at hlen hle
        omega
      rw [List.dropWhile_cons, if_neg (by simp [hpa])]

/-- Trimming is idempotent. -/
theorem jsTrim_idem (s : String) : jsTrim (jsTrim s) = jsTrim s := by
  unfold jsTrim
  rw [dropTrailing_eq_rdropWhile, dropTrailing_eq_rdropWhile]
  congr 1
  show List.rdropWhile isJsWs (List.dropWhile isJsWs
    (List.rdropWhile isJsWs (List.dropWhile isJsWs s.data))) = _
  rw [dropWhile_eq_self_of_rdrop (List.dropWhile_idempotent _ _),
    List.rdropWhile_idempotent]

/-- A whitespace-only string trims to the empty string. -/
theorem jsTrim_of_all_ws {s : String} (h : ∀ c ∈ s.data, isJsWs c = true) :
    jsTrim s = "" := by
  unfold jsTrim
  have hnil : s.data.dropWhile isJsWs = [] :=
    List.dropWhile_eq_nil_iff.mpr h
  rw [hnil]
  decide

/-- Every global command has at most six characters. -/
theorem isGlobalCommand_short {t : String} (h : isGlobalCommand t = true) :
    jsLength t ≤ 6 := by
  have hmem : jsToLower t ∈ globalCommands := List.elem_iff.mp h
  have hlen : jsLength (jsToLower t) = jsLength t := by
    simp [jsLength, jsToLower]
  rw [← hlen]
  simp only [globalCommands, List.mem_cons, List.not_mem_nil, or_false]
    at hmem
  rcases hmem with h' | h' | h' | h' | h' | h' | h' <;> rw [h'] <;> decide

/-- C10: the dispatcher trims every inbound text before command
interception and per-step handling — processing is invariant under
pre-trimming; a whitespace-only text is rejected as empty in WAITING_TITLE
and WAITING_CONTENT; the 100/5000 limits are applied to the trimmed length;
and any stored title or body equals the trimmed text, which carries no
leading or trailing whitespace (trimming is idempotent). -/
theorem dispatcher_trims_input (cfg : Config) (text : String)
    (s : ConversationState) (now : Nat) :
    (processTextMessage cfg (jsTrim text) s now =
      processTextMessage cfg text s now) ∧
    ((∀ c ∈ text.data, isJsWs c = true) →
      (s.step = .waitingTitle → processTextMessage cfg text s now =
        .ok { responseMessage := some "タイトルを入力してください。" }) ∧
      (s.step = .waitingContent → processTextMessage cfg text s now =
        .ok { responseMessage := some "本文を入力してください。" })) ∧
    (s.step = .waitingTitle → 100 < jsLength (jsTrim text) →
      processTextMessage cfg text s now =
        .ok { responseMessage := some "タイトルが長すぎます。100文字以内で入力してください。" }) ∧
    (s.step = .waitingContent → 5000 < jsLength (jsTrim text) →
      processTextMessage cfg text s now =
        .ok { responseMessage := some "本文が長すぎます。5000文字以内で入力してください。" }) ∧
    (s.step = .waitingTitle → isGlobalCommand (jsTrim text) = false →
      ∀ r ns, processTextMessage cfg text s now = .ok r →
        r.nextState = some ns →
        ns.data.title = some (jsTrim text) ∧
        jsTrim (jsTrim text) = jsTrim text) ∧
    (s.step = .waitingContent → isGlobalCommand (jsTrim text) = false →
      ∀ r ns, processTextMessage cfg text s now = .ok r →
        r.nextState = some ns →
        ns.data.content = some (jsTrim text) ∧
        jsTrim (jsTrim text) = jsTrim text) := by
  have hcmd_of_len : ∀ {m : Nat}, 6 < m → m = jsLength (jsTrim text) →
      isGlobalCommand (jsTrim text) = false := by
    intro m hm hml
    by_contra hc
    have hc2 : isGlobalCommand (jsTrim text) = true := by simpa using hc
    have := isGlobalCommand_short hc2
    omega
  refine ⟨?_, ?_, ?_, ?_, ?_, ?_⟩
  · simp only [processTextMessage, jsTrim_idem]
  · intro hws
    have htr : jsTrim text = "" := jsTrim_of_all_ws hws
    constructor
    · intro hs
      simp only [processTextMessage, htr]
      rw [if_neg (by decide)]
      simp only [hs, handleTitleInput]
      rw [if_pos (by decide)]
    · intro hs
      simp only [processTextMessage, htr]
      rw [if_neg (by decide)]
      simp only [hs, handleContentInput]
      rw [if_pos (by decide)]
  · intro hs hlen
    have hcmd : isGlobalCommand (jsTrim text) = false :=
      hcmd_of_len (by omega) rfl
    simp only [processTextMessage]
    rw [if_neg (by simp [hcmd])]
    simp only [hs, handleTitleInput]
    rw [if_neg (by omega), if_pos hlen]
  · intro hs hlen
    have hcmd : isGlobalCommand (jsTrim text) = false :=
      hcmd_of_len (by omega) rfl
    simp only [processTextMessage]
    rw [if_neg (by simp [hcmd])]
    simp only [hs, handleContentInput]
    rw [if_neg (by omega), if_pos hlen]
  · intro hs hcmd r ns heq hns
    have heq2 : handleTitleInput (jsTrim text) s now = .ok r := by
      rw [← heq]
      simp only [processTextMessage]
      rw [if_neg (by simp [hcmd])]
      simp only [hs]
    unfold handleTitleInput at heq2
    split_ifs at heq2 with h1 h2
    · injection heq2 with hr
      rw [← hr] at hns
      simp at hns
    · injection heq2 with hr
      rw [← hr] at hns
      simp at hns
    · simp only [transitionToNext, hs, getNextStep] at heq2
      rw [if_pos (by decide)] at heq2
      injection heq2 with hr
      rw [← hr] at hns
      simp only [Option.some.injEq] at hns
      subst hns
      exact ⟨by simp [updateStateStep, applyUpdates], jsTrim_idem text⟩
  · intro hs hcmd r ns heq hns
    have heq2 : handleContentInput (jsTrim text) s now = .ok r := by
      rw [← heq]
      simp only [processTextMessage]
      rw [if_neg (by simp [hcmd])]
      simp only [hs]
    unfold handleContentInput at heq2
    split_ifs at heq2 with h1 h2
    · injection heq2 with hr
      rw [← hr] at hns
      simp at hns
    · injection heq2 with hr
      rw [← hr] at hns
      simp at hns
    · simp only [transitionToNext, hs, getNextStep] at heq2
      rw [if_pos (by decide)] at heq2
      injection heq2 with hr
      rw [← hr] at hns
      simp only [Option.some.injEq] at hns
      subst hns
      exact ⟨by simp [updateStateStep, applyUpdates], jsTrim_idem text⟩

/-- C10 (witness): the stored-title part applied to a concrete padded
input. -/
theorem dispatcher_trims_input_witness :
    (updateStateStep (stateAt .waitingTitle) .waitingContent
        { title := some (jsTrim "  abc  ") } 1).data.title =
      some (jsTrim "  abc  ") ∧
    jsTrim (jsTrim "  abc  ") = jsTrim "  abc  " := by
  have h := (dispatcher_trims_input sampleConfig "  abc  "
      (stateAt .waitingTitle) 1).2.2.2.2.1 rfl (by decide)
  have heq : processTextMessage sampleConfig "  abc  "
      (stateAt .waitingTitle) 1 =
      .ok { nextState := some (updateStateStep (stateAt .waitingTitle)
              .waitingContent { title := some (jsTrim "  abc  ") } 1)
            responseMessage := some ("タイトル: \"" ++ jsTrim "  abc  " ++
              "\"\n\n" ++ "次に、投稿の本文を入力してください。") } := by
    decide
  exact h _ _ heq rfl

end TsupoxBot
